import Mathlib

/-!
Verification of the AutoDeploy agent console (`src/App.tsx`).

The core of the program is a command interpreter (`processCommand`), a staged
deployment pipeline (`runDeploymentSimulation`) and an append-only log
(`addLog`).  We embed that core as a state-transition system:

* `Sys` is the component state: the log list, the input buffer, the agent
  status, and the list of pipeline segments still pending.  External
  nondeterminism (the `Math.random()`-derived log ids and the wall-clock
  timestamps read by `addLog`) is modelled by a supply function `env` consumed
  one position per appended entry.
* Effects (`Eff`) are the primitive mutations the source performs:
  `addLog` (`Eff.log`), `setLogs([])` (`Eff.clearLogs`), `setInput`
  (`Eff.setInput`), `setStatus` (`Eff.setStatus`), and entering the pipeline
  (`Eff.startRun`).
* The `async` pipeline body is cut at its `await` suspension points into four
  atomic segments `seg0 … seg3`; `seg0` runs synchronously inside the
  submission and the rest are applied by `tick` steps.  Between segments
  further submissions may interleave (`Step`), which is exactly the
  cooperative single-threaded semantics of the source: event handlers run
  between awaited timeouts, and React flushes state updates at the end of
  each discrete event, so a handler observes the latest agent status.
-/

namespace AutoDeploy

/-- `type LogLevel = 'info' | 'success' | 'error' | 'warning'` (App.tsx:17). -/
inductive LogLevel where
  | info
  | success
  | error
  | warning
deriving DecidableEq, Repr

/-- `interface LogEntry` (App.tsx:19-24). -/
structure LogEntry where
  id : String
  timestamp : String
  message : String
  level : LogLevel
deriving DecidableEq, Repr

/-- The `state` field of `AgentStatus` (App.tsx:27). -/
inductive AgentState where
  | idle
  | analyzing
  | building
  | deploying
  | error
deriving DecidableEq, Repr

/-- `interface AgentStatus` (App.tsx:26-30). -/
structure AgentStatus where
  state : AgentState
  currentTask : String
  progress : Nat
deriving DecidableEq, Repr

/-- The primitive state mutations performed by the component. -/
inductive Eff where
  | log (message : String) (level : LogLevel)
  | clearLogs
  | setInput (value : String)
  | setStatus (st : AgentStatus)
  | startRun
deriving DecidableEq, Repr

/-- Pipeline segment before the first `await` (App.tsx:86-87). -/
def seg0 : List Eff :=
  [ .setStatus ⟨.analyzing, "Analyzing repository structure...", 10⟩,
    .log "Initiating deployment sequence..." .info ]

/-- Pipeline segment between the first and second `await` (App.tsx:90-93). -/
def seg1 : List Eff :=
  [ .log "Repository analysis complete. Detected React/Vite project." .success,
    .setStatus ⟨.building, "Running build scripts...", 40⟩,
    .log "Executing: npm run build" .info ]

/-- Pipeline segment between the second and third `await` (App.tsx:96-99). -/
def seg2 : List Eff :=
  [ .log "Build successful. Output directory: /dist" .success,
    .setStatus ⟨.deploying, "Uploading assets to edge...", 75⟩,
    .log "Optimizing assets for edge distribution..." .info ]

/-- Pipeline segment after the third `await` (App.tsx:102-105). -/
def seg3 : List Eff :=
  [ .log "Verifying integrity..." .info,
    .setStatus ⟨.idle, "Deployment Complete", 100⟩,
    .log "Deployment successful! URL: https://autodeploy-agent.vercel.app" .success ]

/-- The full effect trace of `runDeploymentSimulation` (App.tsx:85-106): its
four atomic segments in order, the `await`ed delays being the boundaries. -/
def runDeploymentSimulation : List Eff := seg0 ++ seg1 ++ seg2 ++ seg3

/-- The component state.  `env` supplies, for the `n`-th log append since the
start, the pair (id produced by `Math.random().toString(36).substr(2, 9)`,
wall-clock `timestamp` string); `used` counts the appends so far.  `pending`
holds the pipeline segments whose `await` has not yet resumed. -/
structure Sys where
  env : Nat → String × String
  used : Nat
  logs : List LogEntry
  input : String
  status : AgentStatus
  pending : List (List Eff)

/-- Apply one primitive effect (App.tsx:50-55 for `log`, 74 for `clearLogs`,
61 for `setInput`, 86/92/98/104 for `setStatus`). -/
def applyEff (s : Sys) : Eff → Sys
  | .log msg lvl =>
      { s with
        logs := s.logs ++ [⟨(s.env s.used).1, (s.env s.used).2, msg, lvl⟩],
        used := s.used + 1 }
  | .clearLogs => { s with logs := [] }
  | .setInput v => { s with input := v }
  | .setStatus st => { s with status := st }
  | .startRun => { s with pending := [seg1, seg2, seg3] }

/-- Apply a list of effects left to right. -/
def applyEffs (s : Sys) (es : List Eff) : Sys := es.foldl applyEff s

/-- `addLog` (App.tsx:47-56): append one entry, stamping it with the next id
and timestamp from the external supply. -/
def addLog (s : Sys) (message : String) (level : LogLevel) : Sys :=
  applyEff s (.log message level)

/-- Strip leading and trailing whitespace from a character list, as
JavaScript `String.prototype.trim` does. -/
def trimChars (l : List Char) : List Char :=
  ((l.dropWhile Char.isWhitespace).reverse.dropWhile Char.isWhitespace).reverse

/-- Command normalisation `cmd.trim().toLowerCase()` (App.tsx:68/73/78). -/
def normalize (cmd : String) : String := ⟨(trimChars cmd.data).map Char.toLower⟩

/-- Does `p` occur as a contiguous substring of the second list?  This is
JavaScript `String.prototype.includes` on the underlying characters. -/
def hasSubstr (p : List Char) : List Char → Bool
  | [] => p.isEmpty
  | a :: rest => p.isPrefixOf (a :: rest) || hasSubstr p rest

/-- `.includes('deploy')` on the normalised text (App.tsx:78). -/
def containsDeploy (t : String) : Bool := hasSubstr "deploy".data t.data

/-- The log entry a state `s` would append `k` appends from now. -/
def mkEntry (s : Sys) (k : Nat) (msg : String) (lvl : LogLevel) : LogEntry :=
  ⟨(s.env (s.used + k)).1, (s.env (s.used + k)).2, msg, lvl⟩

/-- The effect trace of one call to `processCommand` (App.tsx:59-83), in
source order: echo log, clear the input buffer, then either the busy warning,
the `help` listing, the `clear`, the synchronous prefix of the deployment
pipeline, or the unrecognized-command error. -/
def processCommandEffects (s : Sys) (cmd : String) : List Eff :=
  .log ("> " ++ cmd) .info ::
  .setInput "" ::
  (if s.status.state ≠ .idle then
    [.log "Agent is busy. Please wait." .warning]
  else if normalize cmd = "help" then
    [.log "Available commands: deploy, status, clear, analyze" .info]
  else if normalize cmd = "clear" then
    [.clearLogs]
  else if containsDeploy (normalize cmd) then
    seg0 ++ [.startRun]
  else
    [.log ("Command not recognized: " ++ cmd) .error])

/-- `processCommand` (App.tsx:59-83) as a state transformer: it performs its
effect trace; if it enters the pipeline it additionally leaves `seg1 … seg3`
pending behind the three `await`s. -/
def processCommand (s : Sys) (cmd : String) : Sys :=
  applyEffs s (processCommandEffects s cmd)

/-- Resume the pipeline past one `await`: apply the next pending segment. -/
def tick (s : Sys) : Sys :=
  match s.pending with
  | [] => s
  | seg :: rest => applyEffs { s with pending := rest } seg

/-- `handleKeyDown` on Enter (App.tsx:108-112): submit only when the buffered
input is non-empty (`input` is truthy exactly when it is not `""`). -/
def handleKeyDown (s : Sys) : Sys :=
  if s.input = "" then s else processCommand s s.input

/-- Initial component state (App.tsx:33-39), for a given external supply. -/
def init (env : Nat → String × String) : Sys :=
  { env := env
    used := 0
    logs := []
    input := ""
    status := { state := .idle, currentTask := "Waiting for command...", progress := 0 }
    pending := [] }

/-- A concrete external supply used for witnesses. -/
def env0 : Nat → String × String := fun n => ("id" ++ toString n, "12:00:00")

/-- One step of the cooperative single-threaded execution: the user edits the
input buffer, a command is submitted (via Enter or the Deploy Now button), or
an awaited timeout fires and the pipeline resumes with its next segment. -/
inductive Step : Sys → Sys → Prop where
  | inputStep (s : Sys) (t : String) : Step s { s with input := t }
  | submitStep (s : Sys) (cmd : String) : Step s (processCommand s cmd)
  | tickStep (s : Sys) : Step s (tick s)

/-- States reachable from the initial state under supply `env`. -/
def Reachable (env : Nat → String × String) (s : Sys) : Prop :=
  Relation.ReflTransGen Step (init env) s

/-- The status an effect sets, if any. -/
def statusOf : Eff → Option AgentStatus
  | .setStatus st => some st
  | _ => none

/-- The message and level an effect logs, if any. -/
def logOf : Eff → Option (String × LogLevel)
  | .log m l => some (m, l)
  | _ => none

/-- The status transitions of one pipeline run, in order. -/
def runStatusList : List AgentStatus := runDeploymentSimulation.filterMap statusOf

/-- The observable view of the log: messages and levels in display order. -/
def logView (s : Sys) : List (String × LogLevel) :=
  s.logs.map fun e => (e.message, e.level)

/-- The run-state invariant tying the pending pipeline segments to the agent
status: the agent is idle exactly when no segment is pending, and while the
pipeline is in flight the status is the one set by the last applied segment. -/
def Inv (s : Sys) : Prop :=
  (s.pending = [] ∧ s.status.state = .idle)
  ∨ (s.pending = [seg1, seg2, seg3] ∧ s.status.state = .analyzing)
  ∨ (s.pending = [seg2, seg3] ∧ s.status.state = .building)
  ∨ (s.pending = [seg3] ∧ s.status.state = .deploying)

/-- A state in the middle of a pipeline run, used as a witness input. -/
def busyState : Sys :=
  { init env0 with status := ⟨.analyzing, "Analyzing repository structure...", 10⟩ }

/-- A state whose input buffer holds a single space, used as a witness input. -/
def wsState : Sys := { init env0 with input := " " }

/-- A degenerate external supply that repeats the same id, as
`Math.random()` may. -/
def envDup : Nat → String × String := fun _ => ("dup", "12:00:00")

lemma containsDeploy_ne_help {cmd : String} (hd : containsDeploy (normalize cmd) = true) :
    normalize cmd ≠ "help" := by
  intro h
  rw [h] at hd
  exact absurd hd (by decide)

lemma containsDeploy_ne_clear {cmd : String} (hd : containsDeploy (normalize cmd) = true) :
    normalize cmd ≠ "clear" := by
  intro h
  rw [h] at hd
  exact absurd hd (by decide)

lemma processCommand_busy (s : Sys) (cmd : String) (h : s.status.state ≠ .idle) :
    (processCommand s cmd).logs
        = s.logs ++ [mkEntry s 0 ("> " ++ cmd) .info,
                     mkEntry s 1 "Agent is busy. Please wait." .warning]
    ∧ (processCommand s cmd).status = s.status
    ∧ (processCommand s cmd).pending = s.pending
    ∧ (processCommand s cmd).input = ""
    ∧ (processCommand s cmd).used = s.used + 2
    ∧ (processCommand s cmd).env = s.env := by
  refine ⟨?_, ?_, ?_, ?_, ?_, ?_⟩ <;>
    simp [processCommand, processCommandEffects, h, applyEffs, applyEff, mkEntry]

lemma processCommand_help (s : Sys) (cmd : String) (hidle : s.status.state = .idle)
    (hc : normalize cmd = "help") :
    (processCommand s cmd).logs
        = s.logs ++ [mkEntry s 0 ("> " ++ cmd) .info,
                     mkEntry s 1 "Available commands: deploy, status, clear, analyze" .info]
    ∧ (processCommand s cmd).status = s.status
    ∧ (processCommand s cmd).pending = s.pending := by
  refine ⟨?_, ?_, ?_⟩ <;>
    simp [processCommand, processCommandEffects, hidle, hc, applyEffs, applyEff, mkEntry]

lemma processCommand_clear (s : Sys) (cmd : String) (hidle : s.status.state = .idle)
    (hc : normalize cmd = "clear") :
    (processCommand s cmd).logs = []
    ∧ (processCommand s cmd).status = s.status
    ∧ (processCommand s cmd).pending = s.pending := by
  have hne : ("clear" : String) ≠ "help" := by decide
  refine ⟨?_, ?_, ?_⟩ <;>
    simp [processCommand, processCommandEffects, hidle, hc, hne, applyEffs, applyEff]

lemma processCommand_deploy (s : Sys) (cmd : String) (hidle : s.status.state = .idle)
    (hd : containsDeploy (normalize cmd) = true) :
    (processCommand s cmd).logs
        = s.logs ++ [mkEntry s 0 ("> " ++ cmd) .info,
                     mkEntry s 1 "Initiating deployment sequence..." .info]
    ∧ (processCommand s cmd).status = ⟨.analyzing, "Analyzing repository structure...", 10⟩
    ∧ (processCommand s cmd).pending = [seg1, seg2, seg3]
    ∧ (processCommand s cmd).used = s.used + 2
    ∧ (processCommand s cmd).env = s.env := by
  have h1 := containsDeploy_ne_help hd
  have h2 := containsDeploy_ne_clear hd
  refine ⟨?_, ?_, ?_, ?_, ?_⟩ <;>
    simp [processCommand, processCommandEffects, hidle, h1, h2, hd, seg0,
      applyEffs, applyEff, mkEntry]

lemma processCommand_other (s : Sys) (cmd : String) (hidle : s.status.state = .idle)
    (h1 : normalize cmd ≠ "help") (h2 : normalize cmd ≠ "clear")
    (hd : containsDeploy (normalize cmd) = false) :
    (processCommand s cmd).logs
        = s.logs ++ [mkEntry s 0 ("> " ++ cmd) .info,
                     mkEntry s 1 ("Command not recognized: " ++ cmd) .error]
    ∧ (processCommand s cmd).status = s.status
    ∧ (processCommand s cmd).pending = s.pending := by
  refine ⟨?_, ?_, ?_⟩ <;>
    simp [processCommand, processCommandEffects, hidle, h1, h2, hd, applyEffs, applyEff, mkEntry]

lemma tick_nil (s : Sys) (h : s.pending = []) : tick s = s := by
  simp [tick, h]

lemma tick_seg1 (s : Sys) (h : s.pending = [seg1, seg2, seg3]) :
    (tick s).logs
        = s.logs ++ [mkEntry s 0 "Repository analysis complete. Detected React/Vite project." .success,
                     mkEntry s 1 "Executing: npm run build" .info]
    ∧ (tick s).status = ⟨.building, "Running build scripts...", 40⟩
    ∧ (tick s).pending = [seg2, seg3]
    ∧ (tick s).used = s.used + 2
    ∧ (tick s).env = s.env := by
  refine ⟨?_, ?_, ?_, ?_, ?_⟩ <;> simp [tick, h, seg1, applyEffs, applyEff, mkEntry]

lemma tick_seg2 (s : Sys) (h : s.pending = [seg2, seg3]) :
    (tick s).logs
        = s.logs ++ [mkEntry s 0 "Build successful. Output directory: /dist" .success,
                     mkEntry s 1 "Optimizing assets for edge distribution..." .info]
    ∧ (tick s).status = ⟨.deploying, "Uploading assets to edge...", 75⟩
    ∧ (tick s).pending = [seg3]
    ∧ (tick s).used = s.used + 2
    ∧ (tick s).env = s.env := by
  refine ⟨?_, ?_, ?_, ?_, ?_⟩ <;> simp [tick, h, seg2, applyEffs, applyEff, mkEntry]

lemma tick_seg3 (s : Sys) (h : s.pending = [seg3]) :
    (tick s).logs
        = s.logs ++ [mkEntry s 0 "Verifying integrity..." .info,
                     mkEntry s 1 "Deployment successful! URL: https://autodeploy-agent.vercel.app" .success]
    ∧ (tick s).status = ⟨.idle, "Deployment Complete", 100⟩
    ∧ (tick s).pending = []
    ∧ (tick s).used = s.used + 2
    ∧ (tick s).env = s.env := by
  refine ⟨?_, ?_, ?_, ?_, ?_⟩ <;> simp [tick, h, seg3, applyEffs, applyEff, mkEntry]

lemma inv_init (env : Nat → String × String) : Inv (init env) := Or.inl ⟨rfl, rfl⟩

lemma inv_step {s t : Sys} (hs : Inv s) (st : Step s t) : Inv t := by
  cases st with
  | inputStep v =>
      exact hs
  | tickStep =>
      rcases hs with ⟨hp, hst⟩ | ⟨hp, hst⟩ | ⟨hp, hst⟩ | ⟨hp, hst⟩
      · rw [tick_nil s hp]
        exact Or.inl ⟨hp, hst⟩
      · exact Or.inr (Or.inr (Or.inl ⟨(tick_seg1 s hp).2.2.1, by rw [(tick_seg1 s hp).2.1]⟩))
      · exact Or.inr (Or.inr (Or.inr ⟨(tick_seg2 s hp).2.2.1, by rw [(tick_seg2 s hp).2.1]⟩))
      · exact Or.inl ⟨(tick_seg3 s hp).2.2.1, by rw [(tick_seg3 s hp).2.1]⟩
  | submitStep cmd =>
      by_cases hidle : s.status.state = .idle
      · have hp : s.pending = [] := by
          rcases hs with ⟨hp, hst⟩ | ⟨hp, hst⟩ | ⟨hp, hst⟩ | ⟨hp, hst⟩
          · exact hp
          all_goals simp [hidle] at hst
        by_cases h1 : normalize cmd = "help"
        · have h := processCommand_help s cmd hidle h1
          exact Or.inl ⟨h.2.2 ▸ hp, h.2.1 ▸ hidle⟩
        by_cases h2 : normalize cmd = "clear"
        · have h := processCommand_clear s cmd hidle h2
          exact Or.inl ⟨h.2.2 ▸ hp, h.2.1 ▸ hidle⟩
        by_cases hd : containsDeploy (normalize cmd) = true
        · have h := processCommand_deploy s cmd hidle hd
          exact Or.inr (Or.inl ⟨h.2.2.1, by rw [h.2.1]⟩)
        · have h := processCommand_other s cmd hidle h1 h2 (by simpa using hd)
          exact Or.inl ⟨h.2.2 ▸ hp, h.2.1 ▸ hidle⟩
      · have h := processCommand_busy s cmd hidle
        rcases hs with ⟨hp, hst⟩ | ⟨hp, hst⟩ | ⟨hp, hst⟩ | ⟨hp, hst⟩
        · exact absurd hst hidle
        · exact Or.inr (Or.inl ⟨h.2.2.1 ▸ hp, h.2.1 ▸ hst⟩)
        · exact Or.inr (Or.inr (Or.inl ⟨h.2.2.1 ▸ hp, h.2.1 ▸ hst⟩))
        · exact Or.inr (Or.inr (Or.inr ⟨h.2.2.1 ▸ hp, h.2.1 ▸ hst⟩))

lemma reachable_inv {env : Nat → String × String} {s : Sys} (h : Reachable env s) : Inv s := by
  induction h with
  | refl => exact inv_init env
  | tail _ hstep ih => exact inv_step ih hstep

/-- C2: in every reachable execution state, the agent status is `idle` exactly
when no pipeline segment is pending, and while a pipeline is in flight the
status is one of analyzing/building/deploying, never idle; hence the busy
check alone ensures at most one pipeline run is in flight. -/
theorem idle_iff_no_pipeline_in_flight (env : Nat → String × String) (s : Sys)
    (h : Reachable env s) :
    (s.status.state = .idle ↔ s.pending = [])
    ∧ (s.pending ≠ [] →
        s.status.state = .analyzing ∨ s.status.state = .building
          ∨ s.status.state = .deploying) := by
  rcases reachable_inv h with ⟨hp, hst⟩ | ⟨hp, hst⟩ | ⟨hp, hst⟩ | ⟨hp, hst⟩
  · exact ⟨⟨fun _ => hp, fun _ => hst⟩, fun hne => absurd hp hne⟩
  · refine ⟨⟨fun hidle => ?_, fun hnil => ?_⟩, fun _ => Or.inl hst⟩
    · simp [hidle] at hst
    · rw [hp] at hnil
      simp at hnil
  · refine ⟨⟨fun hidle => ?_, fun hnil => ?_⟩, fun _ => Or.inr (Or.inl hst)⟩
    · simp [hidle] at hst
    · rw [hp] at hnil
      simp at hnil
  · refine ⟨⟨fun hidle => ?_, fun hnil => ?_⟩, fun _ => Or.inr (Or.inr hst)⟩
    · simp [hidle] at hst
    · rw [hp] at hnil
      simp at hnil

/-- Witness for C2: the state reached by submitting "deploy" once from the
initial state is reachable, and the theorem instantiated there shows an
in-flight pipeline with a non-idle status. -/
theorem idle_iff_no_pipeline_in_flight_witness :
    ((processCommand (init env0) "deploy").status.state = .idle
        ↔ (processCommand (init env0) "deploy").pending = [])
    ∧ ((processCommand (init env0) "deploy").pending ≠ [] →
        (processCommand (init env0) "deploy").status.state = .analyzing
          ∨ (processCommand (init env0) "deploy").status.state = .building
          ∨ (processCommand (init env0) "deploy").status.state = .deploying) :=
  idle_iff_no_pipeline_in_flight env0 (processCommand (init env0) "deploy")
    (Relation.ReflTransGen.single (Step.submitStep (init env0) "deploy"))

/-- C3: a submission made while the agent is not idle only appends the echo
entry and one busy warning; status, pending pipeline work, the append counter
and the supply are otherwise untouched (the input buffer is cleared, as on
every submission), so no pipeline is started, whatever the text was. -/
theorem busy_submission_only_warns (s : Sys) (cmd : String)
    (h : s.status.state ≠ .idle) :
    (processCommand s cmd).logs
        = s.logs ++ [mkEntry s 0 ("> " ++ cmd) .info,
                     mkEntry s 1 "Agent is busy. Please wait." .warning]
    ∧ (processCommand s cmd).status = s.status
    ∧ (processCommand s cmd).pending = s.pending
    ∧ (processCommand s cmd).input = ""
    ∧ (processCommand s cmd).used = s.used + 2
    ∧ (processCommand s cmd).env = s.env :=
  processCommand_busy s cmd h

/-- Witness for C3: submitting "clear" mid-pipeline leaves the log intact up
to the echo and warning, and changes neither status nor pending work. -/
theorem busy_submission_only_warns_witness :
    (busyState.status.state ≠ .idle)
    ∧ (processCommand busyState "clear").logs
        = busyState.logs ++ [mkEntry busyState 0 "> clear" .info,
                             mkEntry busyState 1 "Agent is busy. Please wait." .warning]
    ∧ (processCommand busyState "clear").status = busyState.status
    ∧ (processCommand busyState "clear").pending = busyState.pending :=
  ⟨by decide,
   (busy_submission_only_warns busyState "clear" (by decide)).1,
   (busy_submission_only_warns busyState "clear" (by decide)).2.1,
   (busy_submission_only_warns busyState "clear" (by decide)).2.2.1⟩

/-- C5: submitting text normalising to "clear" while idle leaves the log
stream empty on return (the echo appended by this very submission included)
and does not change the agent status or the pending pipeline work. -/
theorem clear_empties_log (s : Sys) (cmd : String) (hidle : s.status.state = .idle)
    (hc : normalize cmd = "clear") :
    (processCommand s cmd).logs = []
    ∧ (processCommand s cmd).status = s.status
    ∧ (processCommand s cmd).pending = s.pending :=
  processCommand_clear s cmd hidle hc

/-- Witness for C5: submitting " CLEAR " to a state with a non-empty log
empties it and keeps the status. -/
theorem clear_empties_log_witness :
    ((addLog (init env0) "old entry" .info).status.state = .idle)
    ∧ (normalize " CLEAR " = "clear")
    ∧ (processCommand (addLog (init env0) "old entry" .info) " CLEAR ").logs = []
    ∧ (processCommand (addLog (init env0) "old entry" .info) " CLEAR ").status
        = (addLog (init env0) "old entry" .info).status :=
  ⟨by decide, by decide,
   (clear_empties_log (addLog (init env0) "old entry" .info) " CLEAR " (by decide) (by decide)).1,
   (clear_empties_log (addLog (init env0) "old entry" .info) " CLEAR " (by decide) (by decide)).2.1⟩

/-- C7: an idle-state submission that is not help, not clear and does not
contain "deploy" appends exactly the echo and one error entry carrying the
raw text verbatim, and changes neither status nor pending work. -/
theorem unrecognized_command_logs_error (s : Sys) (cmd : String)
    (hidle : s.status.state = .idle)
    (h1 : normalize cmd ≠ "help") (h2 : normalize cmd ≠ "clear")
    (hd : containsDeploy (normalize cmd) = false) :
    (processCommand s cmd).logs
        = s.logs ++ [mkEntry s 0 ("> " ++ cmd) .info,
                     mkEntry s 1 ("Command not recognized: " ++ cmd) .error]
    ∧ (processCommand s cmd).status = s.status
    ∧ (processCommand s cmd).pending = s.pending :=
  processCommand_other s cmd hidle h1 h2 hd

/-- Witness for C7: submitting "Foo Bar!" while idle appends the echo and the
error entry containing the raw text. -/
theorem unrecognized_command_logs_error_witness :
    ((init env0).status.state = .idle)
    ∧ (containsDeploy (normalize "Foo Bar!") = false)
    ∧ (processCommand (init env0) "Foo Bar!").logs
        = [mkEntry (init env0) 0 "> Foo Bar!" .info,
           mkEntry (init env0) 1 "Command not recognized: Foo Bar!" .error]
    ∧ (processCommand (init env0) "Foo Bar!").status = (init env0).status :=
  ⟨by decide, by decide,
   (unrecognized_command_logs_error (init env0) "Foo Bar!" (by decide) (by decide)
      (by decide) (by decide)).1,
   (unrecognized_command_logs_error (init env0) "Foo Bar!" (by decide) (by decide)
      (by decide) (by decide)).2.1⟩

/-- C10: "status" and "analyze", though advertised by the help text, fall
through to the catch-all: submitted while idle they produce only the echo and
the unrecognized-command error, with no status change. -/
theorem advertised_commands_fall_through (s : Sys) (hidle : s.status.state = .idle) :
    ((processCommand s "status").logs
        = s.logs ++ [mkEntry s 0 ("> " ++ "status") .info,
                     mkEntry s 1 ("Command not recognized: " ++ "status") .error]
      ∧ (processCommand s "status").status = s.status
      ∧ (processCommand s "status").pending = s.pending)
    ∧ ((processCommand s "analyze").logs
        = s.logs ++ [mkEntry s 0 ("> " ++ "analyze") .info,
                     mkEntry s 1 ("Command not recognized: " ++ "analyze") .error]
      ∧ (processCommand s "analyze").status = s.status
      ∧ (processCommand s "analyze").pending = s.pending) :=
  ⟨processCommand_other s "status" hidle (by decide) (by decide) (by decide),
   processCommand_other s "analyze" hidle (by decide) (by decide) (by decide)⟩

/-- Witness for C10: concrete fall-through of "status" and "analyze" from the
initial state. -/
theorem advertised_commands_fall_through_witness :
    ((init env0).status.state = .idle)
    ∧ (processCommand (init env0) "status").status = (init env0).status
    ∧ (processCommand (init env0) "analyze").status = (init env0).status :=
  ⟨by decide,
   (advertised_commands_fall_through (init env0) (by decide)).1.2.1,
   (advertised_commands_fall_through (init env0) (by decide)).2.2.1⟩

/-- C8: across the status transitions of one pipeline run, progress is
monotonically non-decreasing, starts at the first phase value 10 and ends at
exactly 100. -/
theorem progress_monotone_in_run :
    List.Chain' (fun a b => a.progress ≤ b.progress) runStatusList
    ∧ runStatusList.head?.map AgentStatus.progress = some 10
    ∧ (runStatusList.getLast?).map AgentStatus.progress = some 100 := by
  have h : runStatusList
      = [⟨.analyzing, "Analyzing repository structure...", 10⟩,
         ⟨.building, "Running build scripts...", 40⟩,
         ⟨.deploying, "Uploading assets to edge...", 75⟩,
         ⟨.idle, "Deployment Complete", 100⟩] := rfl
  rw [h]
  refine ⟨?_, rfl, rfl⟩
  simp [List.chain'_cons]

/-- C9 (amended): every append succeeds and places the new entry, stamped
with the next id and timestamp drawn from the external supply, at the end of
the log, leaving all existing entries unchanged and in their original order;
the id is whatever the supply produced, with no distinctness guarantee. -/
theorem addLog_appends_at_end (s : Sys) (msg : String) (lvl : LogLevel) :
    (addLog s msg lvl).logs.length = s.logs.length + 1
    ∧ (addLog s msg lvl).logs.take s.logs.length = s.logs
    ∧ (addLog s msg lvl).logs.getLast? = some (mkEntry s 0 msg lvl)
    ∧ (addLog s msg lvl).status = s.status := by
  refine ⟨?_, ?_, ?_, ?_⟩ <;>
    simp [addLog, applyEff, mkEntry, List.take_left, List.getLast?_concat]

/-- Counterexample for C9: with a supply that repeats an id (as
`Math.random().toString(36).substr(2, 9)` may), the second appended entry
carries the same id as the entry already in the log, so the new id is not
distinct from every existing one. -/
theorem addLog_id_collision :
    ((addLog (addLog (init envDup) "first" .info) "second" .info).logs.map LogEntry.id)
      = ["dup", "dup"] := by
  decide

lemma mem_run_logs {m : String} {lvl : LogLevel}
    (h : Eff.log m lvl ∈ runDeploymentSimulation) : m.data.head? ≠ some '>' := by
  simp [runDeploymentSimulation, seg0, seg1, seg2, seg3] at h
  rcases h with ⟨rfl, -⟩ | ⟨rfl, -⟩ | ⟨rfl, -⟩ | ⟨rfl, -⟩ | ⟨rfl, -⟩ | ⟨rfl, -⟩ | ⟨rfl, -⟩ <;>
    decide

/-- C4: the very first effect of any submission is the echo log entry
`"> <rawText>"` at level info — it precedes the busy check, any dispatch and
every other effect — and no later effect of the submission or of the pipeline
it may start logs a message beginning with the echo marker, so exactly one
echo entry results. -/
theorem echo_logged_first (s : Sys) (cmd : String) (_hne : cmd ≠ "") :
    (processCommandEffects s cmd).head? = some (.log ("> " ++ cmd) .info)
    ∧ ∀ e ∈ (processCommandEffects s cmd).tail ++ runDeploymentSimulation,
        ∀ m lvl, e = Eff.log m lvl → m.data.head? ≠ some '>' := by
  refine ⟨rfl, ?_⟩
  intro e he m lvl helog
  subst helog
  rw [List.mem_append] at he
  rcases he with he | he
  · simp only [processCommandEffects, List.tail_cons] at he
    rcases List.mem_cons.mp he with h | h
    · simp at h
    · split at h
      · simp at h
        rcases h with ⟨rfl, -⟩
        decide
      · split at h
        · simp at h
          rcases h with ⟨rfl, -⟩
          decide
        · split at h
          · simp at h
          · split at h
            · simp [seg0] at h
              rcases h with ⟨rfl, -⟩
              decide
            · simp at h
              rcases h with ⟨rfl, -⟩
              rw [show ("Command not recognized: " ++ cmd).data.head? = some 'C' from rfl]
              decide
  · exact mem_run_logs he

/-- Witness for C4: submitting "deploy" from the initial state puts the echo
at the head of the effect trace. -/
theorem echo_logged_first_witness :
    ("deploy" ≠ "")
    ∧ (processCommandEffects (init env0) "deploy").head?
        = some (.log ("> " ++ "deploy") .info) :=
  ⟨by decide, (echo_logged_first (init env0) "deploy" (by decide)).1⟩

/-- C1 (amended): a deploy-triggering submission made while idle drives the
agent status through the §4.4 phases in order — analyzing/10, building/40,
deploying/75 — ending idle with task "Deployment Complete" and progress 100,
and appends, after the echo, the seven §4.4 pipeline log messages in the
listed order and levels (the nine table rows carry seven messages). -/
theorem deploy_runs_pipeline (s : Sys) (cmd : String)
    (hidle : s.status.state = .idle)
    (hd : containsDeploy (normalize cmd) = true) :
    (processCommand s cmd).status = ⟨.analyzing, "Analyzing repository structure...", 10⟩
    ∧ (tick (processCommand s cmd)).status = ⟨.building, "Running build scripts...", 40⟩
    ∧ (tick (tick (processCommand s cmd))).status
        = ⟨.deploying, "Uploading assets to edge...", 75⟩
    ∧ (tick (tick (tick (processCommand s cmd)))).status
        = ⟨.idle, "Deployment Complete", 100⟩
    ∧ (tick (tick (tick (processCommand s cmd)))).pending = []
    ∧ logView (tick (tick (tick (processCommand s cmd))))
        = logView s
          ++ [("> " ++ cmd, .info),
              ("Initiating deployment sequence...", .info),
              ("Repository analysis complete. Detected React/Vite project.", .success),
              ("Executing: npm run build", .info),
              ("Build successful. Output directory: /dist", .success),
              ("Optimizing assets for edge distribution...", .info),
              ("Verifying integrity...", .info),
              ("Deployment successful! URL: https://autodeploy-agent.vercel.app", .success)]
    ∧ runDeploymentSimulation.filterMap statusOf
        = [⟨.analyzing, "Analyzing repository structure...", 10⟩,
           ⟨.building, "Running build scripts...", 40⟩,
           ⟨.deploying, "Uploading assets to edge...", 75⟩,
           ⟨.idle, "Deployment Complete", 100⟩] := by
  have ha := processCommand_deploy s cmd hidle hd
  have hb := tick_seg1 (processCommand s cmd) ha.2.2.1
  have hc := tick_seg2 (tick (processCommand s cmd)) hb.2.2.1
  have hd3 := tick_seg3 (tick (tick (processCommand s cmd))) hc.2.2.1
  refine ⟨ha.2.1, hb.2.1, hc.2.1, hd3.2.1, hd3.2.2.1, ?_, rfl⟩
  simp [logView, ha.1, hb.1, hc.1, hd3.1, mkEntry]

/-- Witness for C1: the literal command "deploy" from the initial state ends
at idle, "Deployment Complete", progress 100. -/
theorem deploy_runs_pipeline_witness :
    ((init env0).status.state = .idle)
    ∧ (containsDeploy (normalize "deploy") = true)
    ∧ (tick (tick (tick (processCommand (init env0) "deploy")))).status
        = ⟨.idle, "Deployment Complete", 100⟩ :=
  ⟨by decide, by decide,
   (deploy_runs_pipeline (init env0) "deploy" (by decide) (by decide)).2.2.2.1⟩

/-- Counterexample for C1 as stated: the pipeline appends seven log messages
(eight counting the echo), not nine — the nine §4.4 phase rows list only
seven messages, three rows being pure delays. -/
theorem pipeline_logs_seven_messages :
    (runDeploymentSimulation.filterMap logOf).length = 7
    ∧ ¬(runDeploymentSimulation.filterMap logOf).length = 9
    ∧ (tick (tick (tick (processCommand (init env0) "deploy")))).logs.length = 8 := by
  refine ⟨rfl, by decide, rfl⟩

/-- C6 (amended): the entry point only gates on the buffer being non-empty:
with an empty buffer Enter submits nothing and the state is unchanged, but a
whitespace-only buffer is non-empty, so Enter does submit it, appending the
echo and an unrecognized-command error while leaving the status unchanged. -/
theorem enter_gates_on_nonempty (s : Sys) :
    (s.input = "" → handleKeyDown s = s)
    ∧ (s.input ≠ "" → trimChars s.input.data = [] → s.status.state = .idle →
        (handleKeyDown s).logs
          = s.logs ++ [mkEntry s 0 ("> " ++ s.input) .info,
                       mkEntry s 1 ("Command not recognized: " ++ s.input) .error]
        ∧ (handleKeyDown s).status = s.status) := by
  constructor
  · intro h
    simp [handleKeyDown, h]
  · intro hne htrim hidle
    have hn : normalize s.input = "" := by
      simp only [normalize, htrim, List.map_nil]
    have h1 : normalize s.input ≠ "help" := by
      rw [hn]
      decide
    have h2 : normalize s.input ≠ "clear" := by
      rw [hn]
      decide
    have hdp : containsDeploy (normalize s.input) = false := by
      rw [hn]
      decide
    have hsub := processCommand_other s s.input hidle h1 h2 hdp
    simp only [handleKeyDown, if_neg hne]
    exact ⟨hsub.1, hsub.2.1⟩

/-- Witness for C6 (amended): the single-space buffer is non-empty and
whitespace-only, and Enter leaves the agent status unchanged while logging. -/
theorem enter_gates_on_nonempty_witness :
    (wsState.input ≠ "" ∧ trimChars wsState.input.data = []
      ∧ wsState.status.state = .idle)
    ∧ (handleKeyDown wsState).status = wsState.status :=
  ⟨⟨by decide, by decide, by decide⟩,
   ((enter_gates_on_nonempty wsState).2 (by decide) (by decide) (by decide)).2⟩

/-- Counterexample for C6 as stated: a buffer holding one space consists only
of whitespace, yet activating the entry point does submit it — two log
entries (echo and error) appear, where the claim demands none. -/
theorem whitespace_input_triggers_submission :
    (wsState.input.data.all Char.isWhitespace = true)
    ∧ (handleKeyDown wsState).logs.length = 2
    ∧ ¬(handleKeyDown wsState).logs.length = 0 := by
  refine ⟨rfl, rfl, by decide⟩

end AutoDeploy
